import Mathlib

/-!
Verification of the ETF dashboard's fetch-and-normalize pipeline
(`streamlit_app.py`) against its specification.

The embedding models:
* JSON field values (`JVal`) as they appear in the API response and in
  the pandas DataFrame cells (numbers, strings, and the null/NaN class);
* one raw API result item (`RawItem`), with each projected field an
  `Option JVal` so that an absent key and a key present with a JSON
  null are distinguished, matching Python `dict.get`;
* the row construction of `fetch_etf_data` (`extractRow`), the pandas
  passes `dropna` / `to_numeric(errors = coerce)` / `dropna`
  (`firstDrop`, `coerce`, `secondDrop`, together `normalizePasses`);
* the paginated fetch loop over Python `range(0, total, count)`
  (`pyRange`, `fetchRows`), together with its observable event trace
  (requests, warnings, sleeps) as `fetchTrace`;
* the presentation layer's top/bottom-N views (`top_df`, `under_df`,
  pandas `sort_values` + `head`) and the inclusive range filters
  (`rangeFiltered`), and the Streamlit slider bound (`sliderModel`).

Numbers are modelled as `Rat`: every claim under study is about
comparisons, parsing success/failure and membership, none about
floating-point rounding.
-/

/-- A JSON-like value stored in a raw response field or a table cell:
an explicit null (also standing for pandas NaN after coercion),
a string, or a number. -/
inductive JVal where
  | null : JVal
  | str : String → JVal
  | num : Rat → JVal
deriving DecidableEq

/-- Python `dict.get(key, default)`: the stored value when the key is
present (even when that value is `null`), the default otherwise. -/
def dictGet (o : Option JVal) (d : JVal) : JVal :=
  o.getD d

/-- One element of `data.results` in a page response, restricted to the
projected fields the program reads. `none` means the key is absent from
the nested dicts; `some v` means the key is present with value `v`
(possibly an explicit JSON null). `name` lives under `stock.info`, the
rest under `stock.advancedRatios`. -/
structure RawItem where
  name : Option JVal
  subindustry : Option JVal
  mrktCapf : Option JVal
  lastPrice : Option JVal
  pr1d : Option JVal
  pct4w : Option JVal
  pct26w : Option JVal
  pct52w : Option JVal
  volN12m : Option JVal
  expenseRatio : Option JVal
deriving DecidableEq

/-- One row of the table built in `fetch_etf_data`, with the fields in
the order the dict literal lists them. Field names follow the final
(post-rename) column names. -/
structure Row where
  name : JVal
  subSector : JVal
  marketCap : JVal
  closePrice : JVal
  ret1d : JVal
  ret1m : JVal
  ret6m : JVal
  ret1y : JVal
  volatility : JVal
  expenseRatio : JVal
deriving DecidableEq

/-- The row dict built for one result item: `info.get("name", "")`,
`ratios.get("subindustry", "")`, and `ratios.get(k, 'NA')` for the
eight numeric source keys. -/
def extractRow (it : RawItem) : Row where
  name := dictGet it.name (JVal.str "")
  subSector := dictGet it.subindustry (JVal.str "")
  marketCap := dictGet it.mrktCapf (JVal.str "NA")
  closePrice := dictGet it.lastPrice (JVal.str "NA")
  ret1d := dictGet it.pr1d (JVal.str "NA")
  ret1m := dictGet it.pct4w (JVal.str "NA")
  ret6m := dictGet it.pct26w (JVal.str "NA")
  ret1y := dictGet it.pct52w (JVal.str "NA")
  volatility := dictGet it.volN12m (JVal.str "NA")
  expenseRatio := dictGet it.expenseRatio (JVal.str "NA")

/-- Whether a cell is null-like (`None`/JSON null/NaN), the class of
values `DataFrame.dropna` removes a row for. -/
def isNull : JVal → Bool
  | JVal.null => true
  | _ => false

/-- Whether a cell holds a number. -/
def isNum : JVal → Bool
  | JVal.num _ => true
  | _ => false

/-- A row contains a null-like cell in at least one of its ten columns. -/
def rowHasNull (r : Row) : Bool :=
  isNull r.name || isNull r.subSector || isNull r.marketCap ||
  isNull r.closePrice || isNull r.ret1d || isNull r.ret1m ||
  isNull r.ret6m || isNull r.ret1y || isNull r.volatility ||
  isNull r.expenseRatio

/-- Numeric value of a list of decimal digit characters. -/
def natOfDigits (cs : List Char) : Nat :=
  cs.foldl (fun n c => 10 * n + (c.toNat - 48)) 0

/-- Parse an unsigned decimal literal (digits, optionally a point and
more digits, at least one digit in total). -/
def parseDecimal (cs : List Char) : Option Rat :=
  let intPart := cs.takeWhile Char.isDigit
  let rest := cs.dropWhile Char.isDigit
  match rest with
  | [] =>
    if intPart.isEmpty then none else some ((natOfDigits intPart : Int) : Rat)
  | '.' :: frac =>
    if frac.all Char.isDigit && !(intPart.isEmpty && frac.isEmpty) then
      some (((natOfDigits intPart : Int) : Rat) +
        ((natOfDigits frac : Int) : Rat) / ((10 : Rat) ^ frac.length))
    else none
  | _ => none

/-- Strip leading and trailing whitespace from a character list. -/
def trimChars (cs : List Char) : List Char :=
  ((cs.dropWhile Char.isWhitespace).reverse.dropWhile Char.isWhitespace).reverse

/-- Numeric parsing of a string as `pd.to_numeric` accepts it for the
plain decimal literals this data source produces: optional surrounding
whitespace, optional sign, decimal digits with an optional fractional
part. Anything else (for example the sentinel `"NA"`, or the empty
string) fails to parse. -/
def parseNumber (s : String) : Option Rat :=
  match trimChars s.toList with
  | '-' :: cs => (parseDecimal cs).map (fun q => -q)
  | '+' :: cs => parseDecimal cs
  | cs => parseDecimal cs

/-- Model of `pd.to_numeric(v, errors = coerce)` on one cell: numbers pass
through, nulls stay null (NaN), strings parse or become null. -/
def toNumeric : JVal → JVal
  | JVal.null => JVal.null
  | JVal.num q => JVal.num q
  | JVal.str s =>
    match parseNumber s with
    | some q => JVal.num q
    | none => JVal.null

/-- Coerce the eight declared-numeric columns of a row, leaving `Name`
and `Sub-Sector` untouched — the per-row effect of the
`for col in numeric_cols: df[col] = pd.to_numeric(...)` loop. -/
def coerceRow (r : Row) : Row where
  name := r.name
  subSector := r.subSector
  marketCap := toNumeric r.marketCap
  closePrice := toNumeric r.closePrice
  ret1d := toNumeric r.ret1d
  ret1m := toNumeric r.ret1m
  ret6m := toNumeric r.ret6m
  ret1y := toNumeric r.ret1y
  volatility := toNumeric r.volatility
  expenseRatio := toNumeric r.expenseRatio

/-- The first `df.dropna(inplace=True)`: remove every row with a null-like
cell in any column. -/
def firstDrop (rows : List Row) : List Row :=
  rows.filter (fun r => !rowHasNull r)

/-- The numeric-coercion pass applied to every row. -/
def coerce (rows : List Row) : List Row :=
  rows.map coerceRow

/-- The second `df.dropna(inplace=True)`, after coercion. -/
def secondDrop (rows : List Row) : List Row :=
  rows.filter (fun r => !rowHasNull r)

/-- The three normalization passes of `fetch_etf_data` in source order:
drop null-carrying rows, coerce the numeric columns, drop again. -/
def normalizePasses (rows : List Row) : List Row :=
  secondDrop (coerce (firstDrop rows))

/-- The column renaming `df.columns.str.strip().str.replace(chr(8595),
empty).str.replace(space, underscore)`: strip surrounding whitespace,
delete every occurrence of the one-character pattern `'↓'`, turn every
space into an underscore. -/
def renameCol (s : String) : String :=
  String.mk (((trimChars s.toList).filter (fun c => c ≠ '↓')).map
    (fun c => if c = ' ' then '_' else c))

/-- The raw dict keys of the eight numeric columns, in source order. -/
def rawNumericColumns : List String :=
  ["↓Market Cap", "Close Price", "1D Return", "1M Return",
   "6M Return", "1Y Return", "Volatility vs Nifty", "Expense Ratio"]

/-- The `numeric_cols` list of `fetch_etf_data`. -/
def numeric_cols : List String :=
  ["Market_Cap", "Close_Price", "1D_Return", "1M_Return",
   "6M_Return", "1Y_Return", "Volatility_vs_Nifty", "Expense_Ratio"]

/-- Python `range(start, stop, step)` for a positive step, driven by a
fuel argument large enough to cover every iteration. -/
def pyRangeAux (stop step : Nat) : Nat → Nat → List Nat
  | _, 0 => []
  | start, fuel + 1 =>
    if start < stop then start :: pyRangeAux stop step (start + step) fuel
    else []

/-- Python `range(start, stop, step)`: the ascending offsets
`start, start + step, …` strictly below `stop`. A zero step is a
`ValueError` in Python and never occurs in this program; it is mapped
to the empty range. -/
def pyRange (start stop step : Nat) : List Nat :=
  if step = 0 then [] else pyRangeAux stop step start (stop - start + 1)

/-- What the endpoint answers for one page request: the HTTP status
code, and the parsed `data.results` list when the body is read (the
program only reads it on status 200). -/
structure PageResponse where
  status : Nat
  results : List RawItem

/-- One observable step of the fetch loop: a page request at an offset,
the `st.error` warning shown for a failed page, and the fixed
`time.sleep(1)` pacing delay. -/
inductive Event where
  | request : Nat → Event
  | warn : Nat → Nat → Event
  | sleep : Event
deriving DecidableEq

/-- The rows one loop iteration appends to `all_data`: the extracted
rows on status 200, nothing otherwise. -/
def pageRows (env : Nat → PageResponse) (off : Nat) : List Row :=
  if (env off).status = 200 then (env off).results.map extractRow else []

/-- The observable events of one loop iteration, in source order: the
request, then (on a non-200 status) the warning, then the sleep. -/
def pageEvents (env : Nat → PageResponse) (off : Nat) : List Event :=
  Event.request off ::
    ((if (env off).status = 200 then [] else [Event.warn off (env off).status]) ++
      [Event.sleep])

/-- The content of `all_data` after the whole fetch loop: the per-page contributions
concatenated in request order over `range(0, total, count)`. -/
def fetchRows (env : Nat → PageResponse) (total count : Nat) : List Row :=
  (pyRange 0 total count).flatMap (pageRows env)

/-- The full observable event trace of the fetch loop. -/
def fetchTrace (env : Nat → PageResponse) (total count : Nat) : List Event :=
  (pyRange 0 total count).flatMap (pageEvents env)

/-- The offsets of the page requests a trace contains, in order. -/
def requestOffsets (tr : List Event) : List Nat :=
  tr.filterMap (fun e =>
    match e with
    | Event.request o => some o
    | _ => none)

/-- Model of `fetch_etf_data` with `total_results = 271` and `count = 20`: run
the fetch loop, build the DataFrame, and normalize. When `all_data` is
empty the DataFrame has no columns, so the column rename
(`.str` accessor on a default index) and the `df[col]` numeric-column
accesses raise; this is modelled as an error value. -/
def fetch_etf_data (env : Nat → PageResponse) : Except String (List Row) :=
  if (fetchRows env 271 20).isEmpty then
    Except.error "empty DataFrame has no columns: rename and numeric coercion raise"
  else
    Except.ok (normalizePasses (fetchRows env 271 20))

/-- Numeric value of a table cell. The presentation layer only reads it
on the declared-numeric columns of a normalized table, where every cell
is a number (any other cell shape is mapped to 0 and never reached
under that invariant). -/
def numVal : JVal → Rat
  | JVal.num q => q
  | _ => 0

/-- The sort key for the metric `1Y_Return`. -/
def key1Y (r : Row) : Rat :=
  numVal r.ret1y

/-- The sort key for the metric `1D_Return`. -/
def key1D (r : Row) : Rat :=
  numVal r.ret1d

/-- The sort key for the metric `1M_Return`. -/
def key1M (r : Row) : Rat :=
  numVal r.ret1m

/-- The sort key for the metric `6M_Return`. -/
def key6M (r : Row) : Rat :=
  numVal r.ret6m

/-- The `metric_map` of the app: the four metric labels and the column
each one sorts by. -/
def metric_map : List (String × (Row → Rat)) :=
  [("1 Day Return", key1D), ("30 Day Return", key1M),
   ("6 Month Return", key6M), ("1 Year Return", key1Y)]

/-- Rows paired with their DataFrame index: pandas keeps the original
index through `sort_values`/`head`, and rows of the two derived views
are identified by it. -/
def indexed (df : List Row) : List (Nat × Row) :=
  df.enum

/-- Model of `df.sort_values(by = metric, ascending = True)`: an
argsort of the metric column. Within ties pandas leaves the order to
the underlying sort kind; every property proved below uses only that
the output is a sorted permutation of the input. -/
def sortValuesAsc (key : Row → Rat) (l : List (Nat × Row)) : List (Nat × Row) :=
  l.mergeSort (fun a b => decide (key a.2 ≤ key b.2))

/-- Model of `df.sort_values(by = metric, ascending = False)`: pandas
(`nargsort`) computes the ascending argsort and reverses it. -/
def sortValuesDesc (key : Row → Rat) (l : List (Nat × Row)) : List (Nat × Row) :=
  (sortValuesAsc key l).reverse

/-- The view `top_df = df.sort_values(by = metric, ascending = False).head(n)`. -/
def top_df (key : Row → Rat) (df : List Row) (n : Nat) : List (Nat × Row) :=
  (sortValuesDesc key (indexed df)).take n

/-- The view `under_df = df.sort_values(by = metric, ascending = True).head(n)`. -/
def under_df (key : Row → Rat) (df : List Row) (n : Nat) : List (Nat × Row) :=
  (sortValuesAsc key (indexed df)).take n

/-- Model of `st.slider(label, lo, hi, default)` returning the user's
choice `u` snapped into the slider's range. Streamlit raises a
`StreamlitAPIException` when the range is empty or the default value
falls outside it; both are modelled as error values. -/
def sliderModel (lo hi default u : Nat) : Except String Nat :=
  if hi < lo then
    Except.error "slider: min_value greater than max_value"
  else if default < lo || hi < default then
    Except.error "slider: default value out of range"
  else
    Except.ok (max lo (min hi u))

/-- The `top_n = st.sidebar.slider("Top/Bottom N ETFs", 10, len(df), 50)`
bound, for a user request `u`. -/
def top_n (df : List Row) (u : Nat) : Except String Nat :=
  sliderModel 10 df.length 50 u

/-- Expense-ratio cell of an indexed row, as a number. -/
def expenseOf (p : Nat × Row) : Rat :=
  numVal p.2.expenseRatio

/-- Market-cap cell of an indexed row, as a number. -/
def mcapOf (p : Nat × Row) : Rat :=
  numVal p.2.marketCap

/-- Minimum of `f` over a list, the model of `Series.min()` on a
nonempty column (the empty case never feeds the filters: the sliders
providing the bounds fail on an empty view). -/
def listMin (f : α → Rat) : List α → Rat
  | [] => 0
  | [x] => f x
  | x :: y :: xs => min (f x) (listMin f (y :: xs))

/-- Maximum of `f` over a list, the model of `Series.max()`. -/
def listMax (f : α → Rat) : List α → Rat
  | [] => 0
  | [x] => f x
  | x :: y :: xs => max (f x) (listMax f (y :: xs))

/-- The conjunctive inclusive range filter applied to a derived view:
keep the rows whose expense ratio lies in `[loE, hiE]` and whose market
cap lies in `[loM, hiM]` (the `top_filtered` / `under_filtered`
boolean-mask selections). -/
def rangeFiltered (loE hiE loM hiM : Rat) (v : List (Nat × Row)) : List (Nat × Row) :=
  v.filter (fun p =>
    decide (loE ≤ expenseOf p) && decide (expenseOf p ≤ hiE) &&
    decide (loM ≤ mcapOf p) && decide (mcapOf p ≤ hiM))

/-- A fully-populated result item, used to instantiate theorems at
concrete inputs. -/
def sampleItem : RawItem where
  name := some (JVal.str "Nifty ETF")
  subindustry := some (JVal.str "E_Q")
  mrktCapf := some (JVal.num 5000)
  lastPrice := some (JVal.num 125)
  pr1d := some (JVal.num 1)
  pct4w := some (JVal.num 3)
  pct26w := some (JVal.num 9)
  pct52w := some (JVal.num 17)
  volN12m := some (JVal.num 2)
  expenseRatio := some (JVal.num 4)

/-- The fully-numeric row extracted from `sampleItem`. -/
def sampleRow : Row :=
  extractRow sampleItem

/-- An environment in which every page request succeeds with one
result item. -/
def okEnv : Nat → PageResponse :=
  fun _ => { status := 200, results := [sampleItem] }

/-- An environment in which every page request fails with HTTP 500. -/
def failEnv : Nat → PageResponse :=
  fun _ => { status := 500, results := [] }

/-- An environment in which the page at offset 20 fails with HTTP 500
and every other page succeeds. -/
def mixedEnv : Nat → PageResponse :=
  fun off => if off = 20 then { status := 500, results := [] } else okEnv off

/-- A row whose market-cap cell is the non-empty, non-numeric sentinel
string `"NA"` while every other cell is well-formed. -/
def naRow : Row :=
  { sampleRow with marketCap := JVal.str "NA" }

/-- Whether some projected key of a result item is present in the
response with an explicit JSON null as its value. -/
def itemHasExplicitNull (it : RawItem) : Bool :=
  decide (it.name = some JVal.null) || decide (it.subindustry = some JVal.null) ||
  decide (it.mrktCapf = some JVal.null) || decide (it.lastPrice = some JVal.null) ||
  decide (it.pr1d = some JVal.null) || decide (it.pct4w = some JVal.null) ||
  decide (it.pct26w = some JVal.null) || decide (it.pct52w = some JVal.null) ||
  decide (it.volN12m = some JVal.null) || decide (it.expenseRatio = some JVal.null)

/-- Whether one of the eight required numeric source keys is absent
from a result item. -/
def missingNumeric (it : RawItem) : Bool :=
  it.mrktCapf.isNone || it.lastPrice.isNone || it.pr1d.isNone ||
  it.pct4w.isNone || it.pct26w.isNone || it.pct52w.isNone ||
  it.volN12m.isNone || it.expenseRatio.isNone

/-- The eight numeric cells of a row all hold numbers. -/
def rowAllNumeric (r : Row) : Bool :=
  isNum r.marketCap && isNum r.closePrice && isNum r.ret1d && isNum r.ret1m &&
  isNum r.ret6m && isNum r.ret1y && isNum r.volatility && isNum r.expenseRatio

/-- A result item whose name key is present with an explicit JSON null
and whose market-cap key is absent. -/
def nullItem : RawItem :=
  { sampleItem with name := some JVal.null, mrktCapf := none }

/-- A 200-row table. -/
def df200 : List Row :=
  List.replicate 200 sampleRow

/-- A 50-row table. -/
def df50 : List Row :=
  List.replicate 50 sampleRow

/-- A 20-row table, smaller than the slider's default bound of 50. -/
def df20 : List Row :=
  List.replicate 20 sampleRow

/-!
Shared lemmas about the embedding, used across the claim theorems.
-/

/-- Reading a field with a string default is null-like exactly when the
key is present with an explicit null. -/
theorem isNull_dictGet (o : Option JVal) (d : String) :
    isNull (dictGet o (JVal.str d)) = decide (o = some JVal.null) := by
  cases o with
  | none => simp [dictGet, isNull]
  | some v => cases v <;> simp [dictGet, isNull]

/-- Coercion never yields a string. -/
theorem toNumeric_ne_str (v : JVal) (s : String) : toNumeric v ≠ JVal.str s := by
  cases v with
  | null => simp [toNumeric]
  | num q => simp [toNumeric]
  | str t =>
    simp only [toNumeric]
    cases parseNumber t <;> simp

/-- A coerced cell that is not null holds a number. -/
theorem isNum_toNumeric_of_not_null (v : JVal) (h : isNull (toNumeric v) = false) :
    isNum (toNumeric v) = true := by
  cases v with
  | null => simp [toNumeric, isNull] at h
  | num q => simp [toNumeric, isNum]
  | str t =>
    simp only [toNumeric] at h ⊢
    rcases hp : parseNumber t with _ | q
    · simp [hp, isNull] at h
    · simp [hp, isNum]

/-- Cell coercion is idempotent. -/
theorem toNumeric_idem (v : JVal) : toNumeric (toNumeric v) = toNumeric v := by
  cases v with
  | null => rfl
  | num q => rfl
  | str t =>
    simp only [toNumeric]
    cases parseNumber t <;> rfl

/-- Row coercion is idempotent. -/
theorem coerceRow_idem (r : Row) : coerceRow (coerceRow r) = coerceRow r := by
  simp [coerceRow, toNumeric_idem]

/-- Membership in the normalized table, unfolded: a surviving row is
the coercion of a row that survived the first drop, and carries no
null-like cell. -/
theorem mem_normalizePasses {r : Row} {rows : List Row} :
    r ∈ normalizePasses rows ↔
      (∃ r₀, r₀ ∈ firstDrop rows ∧ r = coerceRow r₀) ∧ rowHasNull r = false := by
  simp only [normalizePasses, secondDrop, coerce, List.mem_filter, List.mem_map,
    Bool.not_eq_true']
  constructor
  · rintro ⟨⟨r₀, h₀, rfl⟩, h⟩
    exact ⟨⟨r₀, h₀, rfl⟩, h⟩
  · rintro ⟨⟨r₀, h₀, rfl⟩, h⟩
    exact ⟨⟨r₀, h₀, rfl⟩, h⟩

/-- The coercion of the sentinel market-cap string is null. -/
theorem toNumeric_na : toNumeric (JVal.str "NA") = JVal.null := by
  decide

/-- Every page iteration emits exactly one request event, at its own
offset. -/
theorem requestOffsets_pageEvents (env : Nat → PageResponse) (off : Nat) :
    requestOffsets (pageEvents env off) = [off] := by
  unfold pageEvents requestOffsets
  split <;> rfl

/-- The requests of the whole trace are exactly the offsets of the
range, in order, whatever the endpoint answers. -/
theorem requestOffsets_flatMap (env : Nat → PageResponse) (offs : List Nat) :
    requestOffsets (offs.flatMap (pageEvents env)) = offs := by
  induction offs with
  | nil => rfl
  | cons o tl ih =>
    simp only [List.flatMap_cons]
    unfold requestOffsets at ih ⊢
    rw [List.filterMap_append]
    rw [show List.filterMap _ (pageEvents env o) = [o] from requestOffsets_pageEvents env o, ih]
    rfl

/-- Every page iteration ends with the pacing sleep. -/
theorem pageEvents_getLast (env : Nat → PageResponse) (off : Nat) :
    (pageEvents env off).getLast? = some Event.sleep := by
  unfold pageEvents
  split <;> rfl

/-- The minimum of `f` over a list bounds every member from below. -/
theorem listMin_le (f : α → Rat) (l : List α) (x : α) (hx : x ∈ l) :
    listMin f l ≤ f x := by
  induction l with
  | nil => cases hx
  | cons a tl ih =>
    cases tl with
    | nil =>
      rcases List.mem_singleton.mp hx with rfl
      simp [listMin]
    | cons b tl' =>
      rcases List.mem_cons.mp hx with rfl | hmem
      · exact min_le_left _ _
      · exact le_trans (min_le_right (f a) (listMin f (b :: tl'))) (ih hmem)

/-- The maximum of `f` over a list bounds every member from above. -/
theorem le_listMax (f : α → Rat) (l : List α) (x : α) (hx : x ∈ l) :
    f x ≤ listMax f l := by
  induction l with
  | nil => cases hx
  | cons a tl ih =>
    cases tl with
    | nil =>
      rcases List.mem_singleton.mp hx with rfl
      simp [listMax]
    | cons b tl' =>
      rcases List.mem_cons.mp hx with rfl | hmem
      · exact le_max_left _ _
      · exact le_trans (ih hmem) (le_max_right (f a) (listMax f (b :: tl')))

/-- The ascending sort is a permutation of its input. -/
theorem sortValuesAsc_perm (key : Row → Rat) (l : List (Nat × Row)) :
    List.Perm (sortValuesAsc key l) l :=
  List.mergeSort_perm l _

/-- The ascending sort is sorted by the metric. -/
theorem sortValuesAsc_pairwise (key : Row → Rat) (l : List (Nat × Row)) :
    (sortValuesAsc key l).Pairwise (fun a b => key a.2 ≤ key b.2) := by
  have h := @List.sorted_mergeSort (Nat × Row)
    (fun a b => decide (key a.2 ≤ key b.2))
    (fun a b c hab hbc => by
      simp only [decide_eq_true_eq] at *
      exact le_trans hab hbc)
    (fun a b => by
      simp only [Bool.or_eq_true, decide_eq_true_eq]
      exact le_total (key a.2) (key b.2))
    l
  exact h.imp (fun {a b} hab => by simpa using hab)

/-- The sorts preserve the table size. -/
theorem sortValuesAsc_length (key : Row → Rat) (l : List (Nat × Row)) :
    (sortValuesAsc key l).length = l.length := by
  simp [sortValuesAsc]

/-- A coerced row without null-like cells has numbers in all eight
numeric columns. -/
theorem rowAllNumeric_coerce (r₀ : Row) (h : rowHasNull (coerceRow r₀) = false) :
    rowAllNumeric (coerceRow r₀) = true := by
  simp only [rowHasNull, coerceRow, Bool.or_eq_false_iff] at h
  obtain ⟨⟨⟨⟨⟨⟨⟨⟨⟨-, -⟩, h3⟩, h4⟩, h5⟩, h6⟩, h7⟩, h8⟩, h9⟩, h10⟩ := h
  simp only [rowAllNumeric, coerceRow, Bool.and_eq_true]
  exact ⟨⟨⟨⟨⟨⟨⟨isNum_toNumeric_of_not_null _ h3, isNum_toNumeric_of_not_null _ h4⟩,
    isNum_toNumeric_of_not_null _ h5⟩, isNum_toNumeric_of_not_null _ h6⟩,
    isNum_toNumeric_of_not_null _ h7⟩, isNum_toNumeric_of_not_null _ h8⟩,
    isNum_toNumeric_of_not_null _ h9⟩, isNum_toNumeric_of_not_null _ h10⟩

/-- A result item missing a required numeric key extracts to a row
whose coercion carries a null: the absent key defaulted to the string
`"NA"`, which fails numeric parsing. -/
theorem rowHasNull_coerce_extract_of_missing (it : RawItem)
    (h : missingNumeric it = true) :
    rowHasNull (coerceRow (extractRow it)) = true := by
  simp only [missingNumeric, Bool.or_eq_true, Option.isNone_iff_eq_none] at h
  rcases h with (((((((h | h) | h) | h) | h) | h) | h) | h) <;>
    simp [rowHasNull, coerceRow, extractRow, dictGet, h, toNumeric_na, isNull]

/-- Every member of the top view ranks at least as high on the metric
as every row the `head` call cut away. -/
theorem topView_ranked (key : Row → Rat) (l : List (Nat × Row)) (n : Nat) :
    ∀ p ∈ (sortValuesDesc key l).take n, ∀ q ∈ (sortValuesDesc key l).drop n,
      key q.2 ≤ key p.2 := by
  have hpair : (sortValuesDesc key l).Pairwise (fun a b => key b.2 ≤ key a.2) :=
    List.pairwise_reverse.mpr (sortValuesAsc_pairwise key l)
  rw [← List.take_append_drop n (sortValuesDesc key l)] at hpair
  exact (List.pairwise_append.mp hpair).2.2

/-- Every member of the bottom view ranks at least as low on the metric
as every row the `head` call cut away. -/
theorem underView_ranked (key : Row → Rat) (l : List (Nat × Row)) (n : Nat) :
    ∀ p ∈ (sortValuesAsc key l).take n, ∀ q ∈ (sortValuesAsc key l).drop n,
      key p.2 ≤ key q.2 := by
  have hpair := sortValuesAsc_pairwise key l
  rw [← List.take_append_drop n (sortValuesAsc key l)] at hpair
  exact (List.pairwise_append.mp hpair).2.2

/-- When the table has at least `2 * n` rows and carries pairwise
distinct indices, the top-`n` and bottom-`n` views share no row. -/
theorem views_disjoint (key : Row → Rat) (l : List (Nat × Row)) (n : Nat)
    (hlen : 2 * n ≤ l.length) (hnd : (l.map Prod.fst).Nodup) :
    ∀ p ∈ (sortValuesDesc key l).take n, ∀ q ∈ (sortValuesAsc key l).take n,
      p.1 ≠ q.1 := by
  have hA : (sortValuesAsc key l).length = l.length := sortValuesAsc_length key l
  have hnodup : ((sortValuesAsc key l).map Prod.fst).Nodup := by
    have hp : List.Perm ((sortValuesAsc key l).map Prod.fst) (l.map Prod.fst) :=
      (sortValuesAsc_perm key l).map Prod.fst
    exact hp.nodup_iff.mpr hnd
  intro p hp q hq
  have hpd : p ∈ (sortValuesAsc key l).drop n := by
    rw [sortValuesDesc, List.take_reverse] at hp
    have hp' : p ∈ (sortValuesAsc key l).drop ((sortValuesAsc key l).length - n) :=
      List.mem_reverse.mp hp
    have hsplit : (sortValuesAsc key l).length - n =
        n + ((sortValuesAsc key l).length - n - n) := by omega
    rw [hsplit, ← List.drop_drop] at hp'
    exact List.drop_subset _ _ hp'
  rw [← List.take_append_drop n (sortValuesAsc key l), List.map_append] at hnodup
  have hdisj := (List.nodup_append.mp hnodup).2.2
  intro heq
  exact hdisj (List.mem_map_of_mem Prod.fst hq)
    (heq ▸ List.mem_map_of_mem Prod.fst hpd)

/-!
Claim theorems.
-/

/-- C1: with the configured total record count 271 and page size 20,
the fetch loop issues exactly ceil(271/20) = 14 page requests, at the
offsets 0, 20, 40, …, 260 in strictly increasing order, and the final
offset 260 is strictly less than the total 271 — whatever the endpoint
answers. -/
theorem fetch_issues_exactly_fourteen_requests (env : Nat → PageResponse) :
    requestOffsets (fetchTrace env 271 20) =
      [0, 20, 40, 60, 80, 100, 120, 140, 160, 180, 200, 220, 240, 260] ∧
    (requestOffsets (fetchTrace env 271 20)).length = 14 ∧
    14 = (271 + 20 - 1) / 20 ∧
    List.Chain' (fun a b => a < b) (requestOffsets (fetchTrace env 271 20)) ∧
    (requestOffsets (fetchTrace env 271 20)).getLast? = some 260 ∧
    260 < 271 := by
  have h : requestOffsets (fetchTrace env 271 20) = pyRange 0 271 20 :=
    requestOffsets_flatMap env (pyRange 0 271 20)
  have hl : pyRange 0 271 20 =
      [0, 20, 40, 60, 80, 100, 120, 140, 160, 180, 200, 220, 240, 260] := by
    decide
  rw [h, hl]
  refine ⟨rfl, by decide, by decide, by simp, by decide, by decide⟩

theorem fetch_issues_exactly_fourteen_requests_witness :
    requestOffsets (fetchTrace okEnv 271 20) =
      [0, 20, 40, 60, 80, 100, 120, 140, 160, 180, 200, 220, 240, 260] ∧
    (requestOffsets (fetchTrace okEnv 271 20)).length = 14 ∧
    14 = (271 + 20 - 1) / 20 ∧
    List.Chain' (fun a b => a < b) (requestOffsets (fetchTrace okEnv 271 20)) ∧
    (requestOffsets (fetchTrace okEnv 271 20)).getLast? = some 260 ∧
    260 < 271 :=
  fetch_issues_exactly_fourteen_requests okEnv

/-- C2: the claim asserts that even when every page request fails and
no records are collected, the pipeline completes and returns a table.
The code does not: with `all_data` empty, `pd.DataFrame([])` has no
columns, so the column rename and the `df[col]` numeric-column accesses
raise, and `fetch_etf_data` never returns. At the concrete environment
answering HTTP 500 on every page, the modelled pipeline produces the
error value instead of a table. -/
theorem fetch_raises_when_all_pages_fail :
    (∀ off, (failEnv off).status = 500) ∧
    fetchRows failEnv 271 20 = [] ∧
    fetch_etf_data failEnv =
      Except.error "empty DataFrame has no columns: rename and numeric coercion raise" :=
  ⟨fun _ => rfl, rfl, rfl⟩

/-- C3: a row whose market-cap cell holds the non-empty, non-numeric
string `"NA"` (and no null-like cell) survives the first drop pass, is
turned into a null by the numeric coercion, and is therefore absent —
in both its raw and its coerced form — from the table the two-pass
normalization produces. -/
theorem na_row_survives_first_pass_dropped_by_second (r : Row) (rows : List Row)
    (h1 : r.marketCap = JVal.str "NA") (h2 : rowHasNull r = false)
    (hmem : r ∈ rows) :
    r ∈ firstDrop rows ∧
    rowHasNull (coerceRow r) = true ∧
    coerceRow r ∉ normalizePasses rows ∧
    r ∉ normalizePasses rows := by
  have hc : (coerceRow r).marketCap = JVal.null := by
    simp [coerceRow, h1, toNumeric_na]
  have hcn : rowHasNull (coerceRow r) = true := by
    simp [rowHasNull, hc, isNull]
  refine ⟨?_, hcn, ?_, ?_⟩
  · simp [firstDrop, List.mem_filter, hmem, h2]
  · intro hin
    rcases mem_normalizePasses.mp hin with ⟨-, hnn⟩
    rw [hcn] at hnn
    cases hnn
  · intro hin
    rcases mem_normalizePasses.mp hin with ⟨⟨r₀, -, heq⟩, -⟩
    apply toNumeric_ne_str r₀.marketCap "NA"
    have : (coerceRow r₀).marketCap = JVal.str "NA" := by rw [← heq]; exact h1
    simpa [coerceRow] using this

theorem na_row_survives_first_pass_dropped_by_second_witness :
    naRow ∈ firstDrop [naRow] ∧
    rowHasNull (coerceRow naRow) = true ∧
    coerceRow naRow ∉ normalizePasses [naRow] ∧
    naRow ∉ normalizePasses [naRow] :=
  na_row_survives_first_pass_dropped_by_second naRow [naRow] rfl (by decide)
    (List.mem_singleton.mpr rfl)

/-- C5: a page whose request returns a non-success status contributes
no records, surfaces a warning in the trace, the loop still requests
every offset of the range exactly once and in order (no retry, no early
exit), and every iteration — successful or failed — ends with the fixed
pacing sleep. -/
theorem failed_page_skipped_and_loop_continues (env : Nat → PageResponse)
    (total count off : Nat) (h1 : off ∈ pyRange 0 total count)
    (h2 : (env off).status ≠ 200) :
    pageRows env off = [] ∧
    Event.warn off (env off).status ∈ fetchTrace env total count ∧
    requestOffsets (fetchTrace env total count) = pyRange 0 total count ∧
    (∀ o ∈ pyRange 0 total count, (pageEvents env o).getLast? = some Event.sleep) := by
  refine ⟨?_, ?_, requestOffsets_flatMap env (pyRange 0 total count),
    fun o _ => pageEvents_getLast env o⟩
  · unfold pageRows
    rw [if_neg h2]
  · apply List.mem_flatMap.mpr
    refine ⟨off, h1, ?_⟩
    unfold pageEvents
    rw [if_neg h2]
    simp

theorem failed_page_skipped_and_loop_continues_witness :
    pageRows mixedEnv 20 = [] ∧
    Event.warn 20 (mixedEnv 20).status ∈ fetchTrace mixedEnv 271 20 ∧
    requestOffsets (fetchTrace mixedEnv 271 20) = pyRange 0 271 20 :=
  have h := failed_page_skipped_and_loop_continues mixedEnv 271 20 20
    (by decide) (by decide)
  ⟨h.1, h.2.1, h.2.2.1⟩

/-- C9: the normalization pass (first drop, numeric coercion, second
drop) is idempotent — re-running it on a table it produced returns that
table unchanged, same rows in the same order. -/
theorem normalization_idempotent (rows : List Row) :
    normalizePasses (normalizePasses rows) = normalizePasses rows := by
  have hmem : ∀ r ∈ normalizePasses rows, rowHasNull r = false ∧ coerceRow r = r := by
    intro r hr
    rcases mem_normalizePasses.mp hr with ⟨⟨r₀, -, rfl⟩, hnull⟩
    exact ⟨hnull, coerceRow_idem r₀⟩
  have h1 : firstDrop (normalizePasses rows) = normalizePasses rows :=
    List.filter_eq_self.mpr (fun r hr => by simp [(hmem r hr).1])
  have h2 : coerce (normalizePasses rows) = normalizePasses rows := by
    unfold coerce
    rw [List.map_congr_left (fun r hr => (hmem r hr).2)]
    exact List.map_id _
  show secondDrop (coerce (firstDrop (normalizePasses rows))) = normalizePasses rows
  rw [h1, h2]
  exact List.filter_eq_self.mpr (fun r hr => by simp [(hmem r hr).1])

theorem normalization_idempotent_witness :
    normalizePasses (normalizePasses [sampleRow, naRow]) =
      normalizePasses [sampleRow, naRow] :=
  normalization_idempotent [sampleRow, naRow]

/-- C10: the first drop pass removes an extracted row exactly when some
projected key of its result item is present with an explicit JSON null
(in any column, the non-numeric ones included); an absent key never
triggers the first pass, because absent keys default to the empty
string (name, sub-sector) or the string sentinel `"NA"` (numeric
fields), neither of which is null-like. -/
theorem first_pass_drops_exactly_explicit_nulls (it : RawItem) (rows : List Row)
    (hmem : extractRow it ∈ rows) :
    rowHasNull (extractRow it) = itemHasExplicitNull it ∧
    (extractRow it ∈ firstDrop rows ↔ itemHasExplicitNull it = false) ∧
    (it.name = none → (extractRow it).name = JVal.str "") ∧
    (it.subindustry = none → (extractRow it).subSector = JVal.str "") ∧
    (it.mrktCapf = none → (extractRow it).marketCap = JVal.str "NA") ∧
    (it.lastPrice = none → (extractRow it).closePrice = JVal.str "NA") ∧
    (it.pr1d = none → (extractRow it).ret1d = JVal.str "NA") ∧
    (it.pct4w = none → (extractRow it).ret1m = JVal.str "NA") ∧
    (it.pct26w = none → (extractRow it).ret6m = JVal.str "NA") ∧
    (it.pct52w = none → (extractRow it).ret1y = JVal.str "NA") ∧
    (it.volN12m = none → (extractRow it).volatility = JVal.str "NA") ∧
    (it.expenseRatio = none → (extractRow it).expenseRatio = JVal.str "NA") := by
  have hnull : rowHasNull (extractRow it) = itemHasExplicitNull it := by
    simp only [rowHasNull, extractRow, itemHasExplicitNull, isNull_dictGet]
  refine ⟨hnull, ?_, ?_, ?_, ?_, ?_, ?_, ?_, ?_, ?_, ?_, ?_⟩
  · rw [firstDrop, List.mem_filter]
    simp [hmem, hnull]
  all_goals intro h
  all_goals simp [extractRow, dictGet, h]

theorem first_pass_drops_exactly_explicit_nulls_witness :
    rowHasNull (extractRow nullItem) = itemHasExplicitNull nullItem ∧
    (extractRow nullItem ∈ firstDrop [extractRow nullItem] ↔
      itemHasExplicitNull nullItem = false) ∧
    (nullItem.mrktCapf = none → (extractRow nullItem).marketCap = JVal.str "NA") :=
  have h := first_pass_drops_exactly_explicit_nulls nullItem [extractRow nullItem]
    (List.mem_singleton.mpr rfl)
  ⟨h.1, h.2.1, h.2.2.2.2.1⟩

/-- C4: after normalization completes, every surviving row holds a
number in each of the eight declared-numeric columns (which are exactly
the renamed raw columns), no surviving row carries a missing sentinel
in any column, and a result item missing a required numeric key is
absent from the table rather than retained with a default. -/
theorem result_table_numeric_invariant (env : Nat → PageResponse) (out : List Row)
    (h : fetch_etf_data env = Except.ok out) :
    rawNumericColumns.map renameCol = numeric_cols ∧
    (∀ r ∈ out, rowAllNumeric r = true ∧ rowHasNull r = false) ∧
    (∀ it : RawItem, missingNumeric it = true → coerceRow (extractRow it) ∉ out) := by
  have hout : out = normalizePasses (fetchRows env 271 20) := by
    unfold fetch_etf_data at h
    by_cases hc : (fetchRows env 271 20).isEmpty
    · rw [if_pos hc] at h
      cases h
    · rw [if_neg hc] at h
      injection h with h2
      exact h2.symm
  subst hout
  refine ⟨by decide, ?_, ?_⟩
  · intro r hr
    rcases mem_normalizePasses.mp hr with ⟨⟨r₀, -, rfl⟩, hnull⟩
    exact ⟨rowAllNumeric_coerce r₀ hnull, hnull⟩
  · intro it hmiss hin
    rcases mem_normalizePasses.mp hin with ⟨-, hnull⟩
    rw [rowHasNull_coerce_extract_of_missing it hmiss] at hnull
    cases hnull

theorem result_table_numeric_invariant_witness :
    rowAllNumeric (coerceRow (extractRow sampleItem)) = true ∧
    coerceRow (extractRow nullItem) ∉ normalizePasses (fetchRows okEnv 271 20) := by
  have h := result_table_numeric_invariant okEnv
    (normalizePasses (fetchRows okEnv 271 20)) rfl
  exact ⟨(h.2.1 (coerceRow (extractRow sampleItem)) (by decide)).1,
    h.2.2 nullItem (by decide)⟩

/-- C7: the claim asserts that the view-size bound N is clamped to
[10, table size] for any table size. It is not: for a table with fewer
than 50 rows the slider call itself fails (its default value 50 lies
outside [10, table size]), so no N is produced at all — exhibited here
on a 20-row table. -/
theorem slider_not_clamped_on_small_table :
    df20.length = 20 ∧
    top_n df20 50 = Except.error "slider: default value out of range" ∧
    ¬ ∃ v, top_n df20 50 = Except.ok v ∧ 10 ≤ v ∧ v ≤ df20.length := by
  have h : top_n df20 50 = Except.error "slider: default value out of range" := by
    simp [top_n, sliderModel, df20]
  refine ⟨by simp [df20], h, ?_⟩
  rintro ⟨v, hv, -, -⟩
  rw [h] at hv
  cases hv

/-- C7 (amended): for every table with at least 50 rows — so that the
slider's default value 50 lies inside [10, table size] — the bound N
used to build the views is the user's request clamped to
[10, table size], hence 10 ≤ N ≤ table size; for smaller tables the
slider call raises and no N is produced. -/
theorem slider_clamped_for_large_table (df : List Row) (u : Nat)
    (h : 50 ≤ df.length) :
    top_n df u = Except.ok (max 10 (min df.length u)) ∧
    10 ≤ max 10 (min df.length u) ∧
    max 10 (min df.length u) ≤ df.length := by
  refine ⟨?_, le_max_left _ _, max_le (le_trans (by omega) h) (min_le_left _ _)⟩
  unfold top_n sliderModel
  have c1 : ¬ df.length < 10 := by omega
  have c2 : ¬ (decide (50 < 10) || decide (df.length < 50)) = true := by
    simp
    omega
  rw [if_neg c1, if_neg c2]

theorem slider_clamped_for_large_table_witness :
    top_n df50 7 = Except.ok (max 10 (min df50.length 7)) ∧
    10 ≤ max 10 (min df50.length 7) ∧
    max 10 (min df50.length 7) ≤ df50.length :=
  slider_clamped_for_large_table df50 7 (by simp [df50])

/-- C8: applying the inclusive range filters with bounds equal to each
filtered column's minimum and maximum over the view returns the view
unchanged — the full-span range filter is an identity. -/
theorem full_span_range_filter_identity (v : List (Nat × Row)) (h : v ≠ []) :
    rangeFiltered (listMin expenseOf v) (listMax expenseOf v)
      (listMin mcapOf v) (listMax mcapOf v) v = v := by
  apply List.filter_eq_self.mpr
  intro p hp
  simp only [Bool.and_eq_true, decide_eq_true_eq]
  exact ⟨⟨⟨listMin_le expenseOf v p hp, le_listMax expenseOf v p hp⟩,
    listMin_le mcapOf v p hp⟩, le_listMax mcapOf v p hp⟩

theorem full_span_range_filter_identity_witness :
    rangeFiltered (listMin expenseOf [(0, sampleRow)])
      (listMax expenseOf [(0, sampleRow)])
      (listMin mcapOf [(0, sampleRow)])
      (listMax mcapOf [(0, sampleRow)]) [(0, sampleRow)] = [(0, sampleRow)] :=
  full_span_range_filter_identity [(0, sampleRow)] (by simp)

/-- C6: on a 200-row normalized table with "1 Year Return" as the
active metric and N = 50, the top view holds exactly 50 rows and the
bottom view exactly 50 rows; each row of the top view scores at least
as high on `1Y_Return` as every row the top view excludes (and dually
for the bottom view), the excluded rows being a complement in the
permutation sense; and — the table being larger than 100 — the two
views are disjoint (no shared row index). -/
theorem top_under_views_are_extremes (df : List Row) (h200 : df.length = 200) :
    List.lookup "1 Year Return" metric_map = some key1Y ∧
    (top_df key1Y df 50).length = 50 ∧
    (under_df key1Y df 50).length = 50 ∧
    (∀ p ∈ top_df key1Y df 50, ∀ q ∈ (sortValuesDesc key1Y (indexed df)).drop 50,
      key1Y q.2 ≤ key1Y p.2) ∧
    (∀ p ∈ under_df key1Y df 50, ∀ q ∈ (sortValuesAsc key1Y (indexed df)).drop 50,
      key1Y p.2 ≤ key1Y q.2) ∧
    List.Perm (top_df key1Y df 50 ++ (sortValuesDesc key1Y (indexed df)).drop 50)
      (indexed df) ∧
    List.Perm (under_df key1Y df 50 ++ (sortValuesAsc key1Y (indexed df)).drop 50)
      (indexed df) ∧
    (∀ p ∈ top_df key1Y df 50, ∀ q ∈ under_df key1Y df 50, p.1 ≠ q.1) := by
  have hlen : (indexed df).length = 200 := by simp [indexed, h200]
  have hperm : List.Perm (sortValuesAsc key1Y (indexed df)) (indexed df) :=
    sortValuesAsc_perm key1Y (indexed df)
  have hpermD : List.Perm (sortValuesDesc key1Y (indexed df)) (indexed df) :=
    (List.reverse_perm _).trans hperm
  refine ⟨rfl, ?_, ?_, topView_ranked key1Y (indexed df) 50,
    underView_ranked key1Y (indexed df) 50, ?_, ?_, ?_⟩
  · simp [top_df, sortValuesDesc, sortValuesAsc_length, hlen]
  · simp [under_df, sortValuesAsc_length, hlen]
  · show List.Perm ((sortValuesDesc key1Y (indexed df)).take 50 ++
      (sortValuesDesc key1Y (indexed df)).drop 50) (indexed df)
    rw [List.take_append_drop]
    exact hpermD
  · show List.Perm ((sortValuesAsc key1Y (indexed df)).take 50 ++
      (sortValuesAsc key1Y (indexed df)).drop 50) (indexed df)
    rw [List.take_append_drop]
    exact hperm
  · exact views_disjoint key1Y (indexed df) 50 (by rw [hlen]; omega)
      (by simpa [indexed] using List.nodup_enum_map_fst df)

theorem top_under_views_are_extremes_witness :
    List.lookup "1 Year Return" metric_map = some key1Y ∧
    (top_df key1Y df200 50).length = 50 ∧
    (under_df key1Y df200 50).length = 50 :=
  have h := top_under_views_are_extremes df200
    (by simp only [df200, List.length_replicate])
  ⟨h.1, h.2.1, h.2.2.1⟩
